import Mathlib

/-
  Shallow embedding of the population-resolution core (src/population.py) of
  hdx-scraper-viz-population, together with theorems settling the spec claims.

  Modelling conventions:
  - pandas DataFrame rows become lists of records; the boundary table is a
    `List BRow` (the overall-population table keeps its integer index labels,
    `List (Nat × PRow)`, because `update_hdx_resource` drops rows by label).
  - External collaborators (HDX catalog, downloader, zonal statistics, the
    row streamer, slugify of the country name) are fields of `Env`.
  - Python exceptions are modelled with `Except PyErr`; logger calls become
    values of `Diag`; float zonal sums are modelled as exact rationals.
  - Python string operations are re-implemented over `List Char` so that all
    definitions evaluate inside the kernel.
-/

namespace Pop

/-- A Python scalar cell value as delivered by the row-streaming collaborator. -/
inductive PyVal where
  | vStr (s : String)
  | vInt (n : Int)
  | vNone
deriving DecidableEq, Repr

/-- Python exceptions the embedded code can propagate. -/
inductive PyErr where
  | valueError
  | attributeError
  | indexError
deriving DecidableEq, Repr

/-- Logger events emitted by the embedded code (message identity kept abstract:
constructor = call site, arguments = interpolated data). -/
inductive Diag where
  | infoProcessing (iso : String) (level : Nat)
  | warnNoDataset (iso : String)
  | warnNoCsv (iso : String) (level : Nat)
  | warnMultiple (iso : String)
  | errDownloadRaster (iso : String)
  | errNoPcodeHeader (iso : String) (level : Nat)
  | errNoPopHeader (iso : String) (level : Nat)
  | warnUnit (iso : String) (pcode : PyVal) (level : Nat)
  | errNoData (iso : String) (rtype : String) (level : Nat)
deriving DecidableEq, Repr

/-- An HDX resource: name, file type (as returned by get_file_type) and url. -/
structure Resource where
  name : String
  format : String
  url : String
deriving DecidableEq, Repr

/-- An HDX dataset: its list of resources. -/
structure PyDataset where
  resources : List Resource
deriving DecidableEq, Repr

/-- One row of the boundary table self.boundaries (geometry kept as an opaque
token, population is the nullable Population column). -/
structure BRow where
  alpha_3 : String
  adm_level : Nat
  adm_pcode : String
  population : Option PyVal
  geometry : Nat
deriving DecidableEq, Repr

/-- Python str.upper (per character). -/
def upperStr (s : String) : String := String.mk (s.data.map Char.toUpper)

/-- Python str.lower (per character). -/
def lowerStr (s : String) : String := String.mk (s.data.map Char.toLower)

/-- Python h.replace("#", str(level)). -/
def hashSub (level : Nat) (s : String) : String :=
  String.mk (s.data.flatMap (fun c => if c = '#' then (Nat.repr level).data else [c]))

def prefixChars : List Char → List Char → Bool
  | [], _ => true
  | _ :: _, [] => false
  | p :: ps, c :: cs => p == c && prefixChars ps cs

def subChars (pat : List Char) : List Char → Bool
  | [] => prefixChars pat []
  | c :: cs => prefixChars pat (c :: cs) || subChars pat cs

/-- Python substring containment: pat in s. -/
def substrB (pat s : String) : Bool := subChars pat.data s.data

/-- Case-insensitive substring containment (re.search with IGNORECASE). -/
def substrCI (pat s : String) : Bool := substrB (lowerStr pat) (lowerStr s)

def natOfDigits (run : List Char) : Nat :=
  run.foldl (fun a c => a * 10 + (c.toNat - 48)) 0

def closeRun (run : List Char) : List Nat :=
  if run.length = 4 then [natOfDigits run] else []

/-- Scanner for re.findall("(?<!\d)\d{4}(?!\d)", name): collects the values of
the maximal digit runs of length exactly four, left to right. -/
def yearAux (run : List Char) : List Char → List Nat
  | [] => closeRun run
  | c :: cs => if c.isDigit then yearAux (run ++ [c]) cs else closeRun run ++ yearAux [] cs

/-- int-converted year tokens found in a resource name (lines 46-52). -/
def yearTokens (s : String) : List Nat := yearAux [] s.data

/-- re.match("(?<!\d)\d{4}_constrained", name, re.IGNORECASE): the name starts
with four digits followed by "_constrained" (case-insensitively). -/
def constrainedName (s : String) : Bool :=
  match s.data with
  | a :: b :: c :: d :: rest =>
      a.isDigit && b.isDigit && c.isDigit && d.isDigit &&
        prefixChars "_constrained".data (rest.map Char.toLower)
  | _ => false

/-- re.match(f".*adm(in)?{level}.*", name, re.IGNORECASE): the default
per-level resource-name pattern, searched case-insensitively. -/
def admDefault (level : Nat) (name : String) : Bool :=
  substrCI ("adm" ++ Nat.repr level) name || substrCI ("admin" ++ Nat.repr level) name

/-- dict.get(k) on a string-keyed mapping. -/
def lookupStr {α : Type} (m : List (String × α)) (k : String) : Option α :=
  (m.find? (fun p => p.1 == k)).map (fun p => p.2)

/-- External collaborators plus the configuration held by the Population class.
A per-country resource_exceptions entry is an arbitrary compiled regex, kept
abstract as a predicate on names; slugName iso stands for
slugify(Country.get_country_name_from_iso3(iso)). -/
structure Env where
  read_from_hdx : String → Option PyDataset
  dataset_exceptions : List (String × String)
  resource_exceptions : List (String × (String → Bool))
  slugName : String → String
  pcode_headers : List String
  download_ok : Resource → Except Unit Unit
  zstats : Resource → String → Nat → List (String × Option ℚ)
  tabular : Resource → List String × List (String → PyVal)

/-- self.exceptions["dataset"].get(iso, f"cod-ps-(iso.lower())"). -/
def dsNameOf (env : Env) (iso : String) : String :=
  (lookupStr env.dataset_exceptions iso).getD ("cod-ps-" ++ lowerStr iso)

/-- self.exceptions["resource"].get(iso, f"adm(in)?(level)") as a name predicate. -/
def nameMatcher (env : Env) (iso : String) (level : Nat) : String → Bool :=
  (lookupStr env.resource_exceptions iso).getD (admDefault level)

/-- The csv resources of the dataset whose name matches the level pattern
(lines 39-40). -/
def csvCands (env : Env) (ds : PyDataset) (iso : String) (level : Nat) : List Resource :=
  ds.resources.filter (fun r => r.format == "csv" && nameMatcher env iso level r.name)

/-- yearmatches flattened over all candidate names (lines 46-50). -/
def allYearsOf (rs : List Resource) : List Nat :=
  (rs.map (fun r => yearTokens r.name)).flatten

/-- The candidates whose name contains str(max(yearmatches)) (lines 53-55);
only meaningful when year tokens exist. -/
def maxFilterOf (rs : List Resource) : List Resource :=
  match (allYearsOf rs).max? with
  | none => rs
  | some my => rs.filter (fun r => substrB (Nat.repr my) r.name)

/-- Lines 45-62 of find_resource for two or more candidates: max(yearmatches)
raises ValueError when no name holds a year token; the max-year filter is
committed only when it leaves exactly one entry; the head of the resulting
list is returned, with a warning when it still has several entries. -/
def selectFromMulti (iso : String) (rs : List Resource) :
    List Diag × Except PyErr (Option Resource × String) :=
  match (allYearsOf rs).max? with
  | none => ([], .error .valueError)
  | some _ =>
    let pop2 := if (maxFilterOf rs).length = 1 then maxFilterOf rs else rs
    let ds := if pop2.length > 1 then [Diag.warnMultiple iso] else []
    match pop2 with
    | [] => (ds, .error .indexError)
    | r :: _ => (ds, .ok (some r, "csv"))

/-- find_resource (lines 24-62). Returns the emitted log events and either a
raised exception or the (resource option, kind) pair. The fallback branch
dereferences the worldpop dataset without a None check, so a missing fallback
dataset is an AttributeError. -/
def find_resource (env : Env) (iso : String) (level : Nat) :
    List Diag × Except PyErr (Option Resource × String) :=
  match env.read_from_hdx (dsNameOf env iso) with
  | none =>
    match env.read_from_hdx ("worldpop-population-counts-for-" ++ env.slugName iso) with
    | none => ([Diag.warnNoDataset iso], .error .attributeError)
    | some wds =>
      match wds.resources.filter (fun r => r.format == "geotiff" && constrainedName r.name) with
      | [] => ([Diag.warnNoDataset iso], .ok (none, "geotiff"))
      | r :: _ => ([Diag.warnNoDataset iso], .ok (some r, "geotiff"))
  | some ds =>
    match csvCands env ds iso level with
    | [] => ([Diag.warnNoCsv iso level], .ok (none, "geotiff"))
    | [r] => ([], .ok (some r, "csv"))
    | r1 :: r2 :: rest => selectFromMulti iso (r1 :: r2 :: rest)

/-- int(round(pop, 0)): Python 3 round, nearest integer with ties to even. -/
def pyRound (q : ℚ) : Int :=
  if q - (⌊q⌋ : ℚ) < 1/2 then ⌊q⌋
  else if (1/2 : ℚ) < q - (⌊q⌋ : ℚ) then ⌊q⌋ + 1
  else if ⌊q⌋ % 2 = 0 then ⌊q⌋ else ⌊q⌋ + 1

/-- boundaries.loc[boundaries["ADM_PCODE"] == pcode, "Population"] = v. -/
def pcodeUpd (p : String) (v : PyVal) (bnd : List BRow) : List BRow :=
  bnd.map (fun b => if b.adm_pcode == p then { b with population := some v } else b)

/-- One iteration of the zonal-stats loop (lines 78-83): a missing or zero sum
is falsy and stores nothing. -/
def rasterStep (bnd : List BRow) (st : String × Option ℚ) : List BRow :=
  match st.2 with
  | none => bnd
  | some q => if q == 0 then bnd else pcodeUpd st.1 (PyVal.vInt (pyRound q)) bnd

/-- analyze_raster (lines 64-85); dl is the downloader outcome and stats the
zonal-statistics collaborator output (pcode, sum) per polygon of the
(iso, level) selection. Returns (result, boundary table, log events). -/
def analyze_raster (dl : Except Unit Unit) (stats : List (String × Option ℚ))
    (bnd : List BRow) (iso : String) : Option String × List BRow × List Diag :=
  match dl with
  | .error _ => (none, bnd, [Diag.errDownloadRaster iso])
  | .ok _ => (some iso, stats.foldl rasterStep bnd, [])

/-- Python truthiness of the header variables (None and "" are falsy). -/
def truthy : Option String → Bool
  | none => false
  | some s => !(s == "")

/-- Python list [h.replace("#", str(level)) for h in self.headers]. -/
def substituted (templates : List String) (level : Nat) : List String :=
  templates.map (hashSub level)

/-- One iteration of the header-resolution loop (lines 94-100). -/
def resolveStep (templates : List String) (level : Nat)
    (acc : Option String × Option String) (header : String) : Option String × Option String :=
  (if truthy acc.1 then acc.1
   else if (substituted templates level).contains (upperStr header) then some header else acc.1,
   if truthy acc.2 then acc.2
   else if upperStr header == "T_TL" then some header else acc.2)

/-- The resolved (pcode header, population header) pair (lines 92-100). -/
def resolveHeaders (templates : List String) (level : Nat) (headers : List String) :
    Option String × Option String :=
  headers.foldl (resolveStep templates level) (none, none)

/-- Python equality of a row cell against a boundary pcode string. -/
def pvEq (v : PyVal) (s : String) : Bool := v == PyVal.vStr s

/-- The per-record effect of one matched row (line 116): every record of the
whole table whose ADM_PCODE equals the row pcode gets the raw value. -/
def rowUpd (pcode pop : PyVal) (b : BRow) : BRow :=
  if pvEq pcode b.adm_pcode then { b with population := some pop } else b

/-- One iteration of the row loop (lines 110-117): membership is checked
against the ADM_PCODE column of the entire boundary table. -/
def tabRow (pcodeH popH iso : String) (level : Nat)
    (acc : List BRow × Bool × List Diag) (row : String → PyVal) :
    List BRow × Bool × List Diag :=
  if acc.1.any (fun b => pvEq (row pcodeH) b.adm_pcode) then
    (acc.1.map (rowUpd (row pcodeH) (row popH)), true, acc.2.2)
  else
    (acc.1, acc.2.1, acc.2.2 ++ [Diag.warnUnit iso (row pcodeH) level])

/-- analyze_tabular (lines 87-120); headers and rows come from
downloader.get_tabular_rows(resource url, dict_form=True), each row a total
function on the declared headers. -/
def analyze_tabular (templates : List String) (level : Nat) (headers : List String)
    (rows : List (String → PyVal)) (bnd : List BRow) (iso : String) :
    Option String × List BRow × List Diag :=
  if truthy (resolveHeaders templates level headers).1 = false then
    (none, bnd, [Diag.errNoPcodeHeader iso level])
  else if truthy (resolveHeaders templates level headers).2 = false then
    (none, bnd, [Diag.errNoPopHeader iso level])
  else
    (if (rows.foldl
          (tabRow ((resolveHeaders templates level headers).1.getD "")
            ((resolveHeaders templates level headers).2.getD "") iso level)
          (bnd, false, [])).2.1 then some iso else none,
     (rows.foldl
        (tabRow ((resolveHeaders templates level headers).1.getD "")
          ((resolveHeaders templates level headers).2.getD "") iso level)
        (bnd, false, [])).1,
     (rows.foldl
        (tabRow ((resolveHeaders templates level headers).1.getD "")
          ((resolveHeaders templates level headers).2.getD "") iso level)
        (bnd, false, [])).2.2)

/-- The mutable state of an update_population run: the updated_countries dict
(insertion-ordered association list), the boundary table and the log. -/
structure UState where
  uc : List (Nat × List String)
  bnd : List BRow
  diags : List Diag
deriving Repr

/-- updated_countries[level] when the key is present. -/
def lookupUC (uc : List (Nat × List String)) (level : Nat) : Option (List String) :=
  (uc.find? (fun p => p.1 == level)).map (fun p => p.2)

/-- if level not in updated_countries: updated_countries[level] = list(). -/
def ensureKey (uc : List (Nat × List String)) (level : Nat) : List (Nat × List String) :=
  if (lookupUC uc level).isSome then uc else uc ++ [(level, [])]

/-- if iso not in updated_countries[level]: updated_countries[level].append(iso). -/
def addIso (uc : List (Nat × List String)) (level : Nat) (iso : String) :
    List (Nat × List String) :=
  uc.map (fun p => if p.1 == level then
            (p.1, if p.2.contains iso then p.2 else p.2 ++ [iso]) else p)

def dedupAux (seen : List Nat) : List Nat → List Nat
  | [] => []
  | x :: xs => if seen.contains x then dedupAux seen xs else x :: dedupAux (x :: seen) xs

/-- list(set(boundaries["ADM_LEVEL"].loc[boundaries["alpha_3"] == iso]))
(line 125); set order is modelled as first-occurrence order. -/
def levelsOf (bnd : List BRow) (iso : String) : List Nat :=
  dedupAux [] ((bnd.filter (fun b => b.alpha_3 == iso)).map (fun b => b.adm_level))

/-- Lines 139-143: dispatch on the resource type returned by find_resource. -/
def dispatch (env : Env) (iso : String) (level : Nat) (r : Resource) (rtype : String)
    (bnd : List BRow) : Option String × List BRow × List Diag :=
  if rtype == "geotiff" then analyze_raster (env.download_ok r) (env.zstats r iso level) bnd iso
  else if rtype == "csv" then
    analyze_tabular env.pcode_headers level (env.tabular r).1 (env.tabular r).2 bnd iso
  else (none, bnd, [])

/-- Whether the (iso, level) pair leads to a truthy aggregator result when the
loop body reaches it with boundary table bnd. -/
def pairSuccess (env : Env) (bnd : List BRow) (iso : String) (level : Nat) : Bool :=
  match (find_resource env iso level).2 with
  | .error _ => false
  | .ok (none, _) => false
  | .ok (some r, rtype) => (dispatch env iso level r rtype bnd).1.isSome

/-- The loop body for one (iso, level) pair (lines 127-147). An exception
escaping find_resource propagates out of the loop. -/
def stepPair (env : Env) (iso : String) (st : UState) (level : Nat) : Except PyErr UState :=
  match (find_resource env iso level).2 with
  | .error e => .error e
  | .ok (none, rtype) =>
    .ok ⟨ensureKey st.uc level, st.bnd,
         st.diags ++ [Diag.infoProcessing iso level] ++ (find_resource env iso level).1
           ++ [Diag.errNoData iso rtype level]⟩
  | .ok (some r, rtype) =>
    .ok ⟨if (dispatch env iso level r rtype st.bnd).1.isSome
           then addIso (ensureKey st.uc level) level iso else ensureKey st.uc level,
         (dispatch env iso level r rtype st.bnd).2.1,
         st.diags ++ [Diag.infoProcessing iso level] ++ (find_resource env iso level).1
           ++ (dispatch env iso level r rtype st.bnd).2.2⟩

/-- The inner loop over the admin levels of one country (lines 126-147). -/
def runLevels (env : Env) (iso : String) : UState → List Nat → Except PyErr UState
  | st, [] => .ok st
  | st, l :: ls =>
    match stepPair env iso st l with
    | .error e => .error e
    | .ok st2 => runLevels env iso st2 ls

/-- The outer loop over countries (lines 124-147); the level list is read from
the current boundary table. -/
def runCountries (env : Env) : UState → List String → Except PyErr UState
  | st, [] => .ok st
  | st, iso :: rest =>
    match runLevels env iso st (levelsOf st.bnd iso) with
    | .error e => .error e
    | .ok st2 => runCountries env st2 rest

/-- update_population (lines 122-149). -/
def update_population (env : Env) (bnd0 : List BRow) (countries : List String) :
    Except PyErr (List (Nat × List String) × List BRow × List Diag) :=
  (runCountries env ⟨[], bnd0, []⟩ countries).map (fun st => (st.uc, st.bnd, st.diags))

/-- A row of the overall population table (boundary attributes, no geometry). -/
structure PRow where
  alpha_3 : String
  adm_level : Nat
  adm_pcode : String
  population : Option PyVal
deriving DecidableEq, Repr

/-- boundaries.drop(columns="geometry") on one record. -/
def dropGeometry (b : BRow) : PRow :=
  ⟨b.alpha_3, b.adm_level, b.adm_pcode, b.population⟩

/-- A pandas frame with its integer index labels attached to each row. -/
abbrev PTable := List (Nat × PRow)

/-- Boolean mask (pop_data["alpha_3"].isin(isos)) & (pop_data["ADM_LEVEL"] == level). -/
def maskHit (level : Nat) (isos : List String) (r : PRow) : Bool :=
  isos.contains r.alpha_3 && r.adm_level == level

/-- One iteration of the merge loop (lines 166-171): pandas drops rows BY
INDEX LABEL, so every row sharing a label with a masked row is removed, then
the updated slice is concatenated (labels preserved). -/
def mergeLevel (updated : PTable) (pd : PTable) (level : Nat) (isos : List String) : PTable :=
  pd.filter (fun e => !(((pd.filter (fun e2 => maskHit level isos e2.2)).map
      (fun e2 => e2.1)).contains e.1)) ++
    updated.filter (fun e => maskHit level isos e.2)

def clLt : List Char → List Char → Bool
  | [], [] => false
  | [], _ :: _ => true
  | _ :: _, [] => false
  | a :: as, b :: bs =>
    if a.toNat < b.toNat then true else if b.toNat < a.toNat then false else clLt as bs

def clLe : List Char → List Char → Bool
  | [], _ => true
  | _ :: _, [] => false
  | a :: as, b :: bs =>
    if a.toNat < b.toNat then true else if b.toNat < a.toNat then false else clLe as bs

/-- sort_values(by=["alpha_3", "ADM_LEVEL", "ADM_PCODE"]) key comparison. -/
def rowKeyLeB (a b : Nat × PRow) : Bool :=
  clLt a.2.alpha_3.data b.2.alpha_3.data ||
    (a.2.alpha_3 == b.2.alpha_3 &&
      (decide (a.2.adm_level < b.2.adm_level) ||
        (a.2.adm_level == b.2.adm_level && clLe a.2.adm_pcode.data b.2.adm_pcode.data)))

def rowKeyLe (a b : Nat × PRow) : Prop := rowKeyLeB a b = true

instance : DecidableRel rowKeyLe := fun x y => inferInstanceAs (Decidable (rowKeyLeB x y = true))

/-- pop_data.sort_values(by=["alpha_3", "ADM_LEVEL", "ADM_PCODE"]) (line 173). -/
def sortPop (l : PTable) : PTable := List.insertionSort rowKeyLe l

/-- update_hdx_resource (lines 151-174); load is the catalog/download outcome
for the prior overall table (none:= dataset miss, error := DownloadError). -/
def update_hdx_resource (bndT : List (Nat × BRow)) (load : Option (Except Unit PTable))
    (uc : List (Nat × List String)) : Option PTable :=
  match load with
  | none => none
  | some (.error _) => none
  | some (.ok pop_data) =>
    some (sortPop (uc.foldl
      (fun pd p => mergeLevel (bndT.map (fun e => (e.1, dropGeometry e.2))) pd p.1 p.2)
      pop_data))

instance {ε α : Type} [DecidableEq ε] [DecidableEq α] : DecidableEq (Except ε α) :=
  fun a b =>
    match a, b with
    | .ok x, .ok y =>
      if h : x = y then isTrue (by rw [h]) else isFalse (by simp [h])
    | .ok _, .error _ => isFalse (by simp)
    | .error _, .ok _ => isFalse (by simp)
    | .error x, .error y =>
      if h : x = y then isTrue (by rw [h]) else isFalse (by simp [h])

/-- Projection helpers used to state closed facts about run outcomes. -/
def ucOf (r : Except PyErr (List (Nat × List String) × List BRow × List Diag)) :
    Option (List (Nat × List String)) :=
  match r with
  | .ok t => some t.1
  | .error _ => none

def diagsOf (r : Except PyErr (List (Nat × List String) × List BRow × List Diag)) :
    Option (List Diag) :=
  match r with
  | .ok t => some t.2.2
  | .error _ => none

def exIsOk {α : Type} (r : Except PyErr α) : Bool :=
  match r with
  | .ok _ => true
  | .error _ => false

/-- updated_countries membership as a boolean. -/
def ucHas (uc : List (Nat × List String)) (level : Nat) (iso : String) : Bool :=
  match lookupUC uc level with
  | some lst => lst.contains iso
  | none => false

/-- The (country, level, pcode) identity of a boundary record; every boundary
write changes only the population, never this skeleton. -/
def skel (b : BRow) : String × Nat × String := (b.alpha_3, b.adm_level, b.adm_pcode)

/-- The cumulative effect of a row stream on one boundary record. -/
def rowsApply (pcodeH popH : String) (rows : List (String → PyVal)) (b : BRow) : BRow :=
  rows.foldl (fun bb row => rowUpd (row pcodeH) (row popH) bb) b

/- Concrete inputs used by witnesses and counterexamples. -/

def rsA1 : Resource := ⟨"pop_adm1_alpha", "csv", "u1"⟩

def rsB1 : Resource := ⟨"pop_adm1_beta", "csv", "u2"⟩

/-- A dataset exposing two level-1 csv resources with no year token anywhere. -/
def env1 : Env :=
  { read_from_hdx := fun n => if n == "cod-ps-aaa" then some ⟨[rsA1, rsB1]⟩ else none,
    dataset_exceptions := [],
    resource_exceptions := [],
    slugName := lowerStr,
    pcode_headers := ["ADM#PCODE"],
    download_ok := fun _ => Except.ok (),
    zstats := fun _ _ _ => [],
    tabular := fun _ => ([], []) }

def r19 : Resource := ⟨"pop_adm1_2019_x", "csv", "v1"⟩

def r21a : Resource := ⟨"pop_adm1_2021_a", "csv", "v2"⟩

def r21b : Resource := ⟨"pop_adm1_2021_b", "csv", "v3"⟩

def ds2 : PyDataset := ⟨[r19, r21a, r21b]⟩

/-- Three level-1 csv candidates named for 2019, 2021 and 2021. -/
def env2 : Env :=
  { env1 with read_from_hdx := fun n => if n == "cod-ps-aaa" then some ds2 else none }

def ds2w : PyDataset := ⟨[r19, r21a]⟩

/-- Exactly two level-1 csv candidates named for 2019 and 2021. -/
def env2w : Env :=
  { env1 with read_from_hdx := fun n => if n == "cod-ps-aaa" then some ds2w else none }

def wres : Resource := ⟨"2020_constrained_x", "geotiff", "w1"⟩

/-- AAA hits the unguarded max() path; BBB succeeds via the worldpop raster
fallback. -/
def env5 : Env :=
  { env1 with read_from_hdx := fun n =>
      if n == "cod-ps-aaa" then some ⟨[rsA1, rsB1]⟩
      else if n == "worldpop-population-counts-for-bbb" then some ⟨[wres]⟩
      else none }

def bnd5 : List BRow := [⟨"AAA", 1, "AA01", none, 0⟩, ⟨"BBB", 1, "BB01", none, 0⟩]

/-- A boundary table holding the same pcode in two different scopes. -/
def bnd3 : List BRow := [⟨"AAA", 1, "P1", none, 0⟩, ⟨"BBB", 2, "P1", none, 0⟩]

def row3 : String → PyVal :=
  fun h => if h == "ADM1PCODE" then PyVal.vStr "P1" else PyVal.vStr "700"

def brow4 : BRow := ⟨"AAA", 1, "P1", none, 0⟩

def bndKEN : List BRow := [⟨"KEN", 1, "KE01", none, 0⟩]

def rowKEN : String → PyVal :=
  fun h => if h == "ADM1PCODE" then PyVal.vStr "KE01" else PyVal.vStr "500000"

def row10 : String → PyVal :=
  fun h => if h == "ADM1PCODE" then PyVal.vStr "KE01" else PyVal.vNone

/-- Prior overall table: ("ABC", 2) at label 0 and ("XYZ", 9) at label 1. -/
def prior7 : PTable :=
  [(0, ⟨"ABC", 2, "AB002", some (PyVal.vInt 5)⟩), (1, ⟨"XYZ", 9, "X1", some (PyVal.vInt 7)⟩)]

/-- Boundary table whose labels collide with the prior table's labels. -/
def bnd7 : List (Nat × BRow) :=
  [(0, ⟨"ABC", 1, "AB001", some (PyVal.vInt 11), 0⟩),
   (1, ⟨"ABC", 2, "AB002", some (PyVal.vInt 22), 0⟩)]

def uc7 : List (Nat × List String) := [(1, ["ABC"]), (2, ["ABC"])]

/- Helper lemmas. -/

theorem rowUpd_skel (pcode pop : PyVal) (b : BRow) : skel (rowUpd pcode pop b) = skel b := by
  unfold rowUpd skel
  split <;> rfl

theorem rowUpd_pcode (pcode pop : PyVal) (b : BRow) :
    (rowUpd pcode pop b).adm_pcode = b.adm_pcode := by
  unfold rowUpd
  split <;> rfl

theorem rowUpd_noMatch (pcode pop : PyVal) (b : BRow)
    (h : pvEq pcode b.adm_pcode = false) : rowUpd pcode pop b = b := by
  simp [rowUpd, h]

theorem anyExt {α : Type} (l : List α) (p q2 : α → Bool) (h : ∀ a, p a = q2 a) :
    l.any p = l.any q2 := by
  induction l with
  | nil => rfl
  | cons x xs ih => simp only [List.any_cons, h x, ih]

theorem filterExt {α : Type} (l : List α) (p q2 : α → Bool) (h : ∀ a, p a = q2 a) :
    l.filter p = l.filter q2 := by
  induction l with
  | nil => rfl
  | cons x xs ih => simp only [List.filter_cons, h x, ih]

theorem mapExt {α β : Type} (l : List α) (f g : α → β) (h : ∀ a ∈ l, f a = g a) :
    l.map f = l.map g := by
  induction l with
  | nil => rfl
  | cons x xs ih =>
    simp only [List.map_cons, h x (List.mem_cons_self x xs),
      ih (fun a ha => h a (List.mem_cons_of_mem x ha))]

theorem anyPcode_map_rowUpd (pcode pop x : PyVal) (bnd : List BRow) :
    (bnd.map (rowUpd pcode pop)).any (fun b => pvEq x b.adm_pcode) =
      bnd.any (fun b => pvEq x b.adm_pcode) := by
  rw [List.any_map]
  exact anyExt bnd _ _ (fun b => by simp [Function.comp, rowUpd_pcode])

/-- Full characterisation of the row loop of analyze_tabular: the final table
is a per-record fold of the rows, the updated flag records whether any row
matched any pcode of the table, and exactly the unmatched rows warn. -/
theorem tabFold (pcodeH popH iso : String) (level : Nat) (rows : List (String → PyVal))
    (bnd : List BRow) (u : Bool) (ds : List Diag) :
    rows.foldl (tabRow pcodeH popH iso level) (bnd, u, ds) =
      (bnd.map (rowsApply pcodeH popH rows),
       u || rows.any (fun row => bnd.any (fun b => pvEq (row pcodeH) b.adm_pcode)),
       ds ++ (rows.filter
          (fun row => !(bnd.any (fun b => pvEq (row pcodeH) b.adm_pcode)))).map
         (fun row => Diag.warnUnit iso (row pcodeH) level)) := by
  induction rows generalizing bnd u ds with
  | nil =>
    have h1 : bnd.map (rowsApply pcodeH popH []) = bnd := by
      rw [show rowsApply pcodeH popH [] = fun b => b from rfl]
      exact List.map_id' bnd
    simp [h1]
  | cons row rows ih =>
    rw [List.foldl_cons]
    cases hm : bnd.any (fun b => pvEq (row pcodeH) b.adm_pcode) with
    | true =>
      have hstep : tabRow pcodeH popH iso level (bnd, u, ds) row =
          (bnd.map (rowUpd (row pcodeH) (row popH)), true, ds) := by
        simp [tabRow, hm]
      rw [hstep, ih]
      have hf : rows.filter (fun r2 => !((bnd.map (rowUpd (row pcodeH) (row popH))).any
            (fun b => pvEq (r2 pcodeH) b.adm_pcode))) =
          rows.filter (fun r2 => !(bnd.any (fun b => pvEq (r2 pcodeH) b.adm_pcode))) :=
        filterExt _ _ _ (fun r2 => by rw [anyPcode_map_rowUpd])
      simp only [Prod.mk.injEq]
      refine ⟨?_, ?_, ?_⟩
      · rw [List.map_map]
        rfl
      · simp [List.any_cons, hm]
      · rw [hf]
        simp [List.filter_cons, hm]
    | false =>
      have hstep : tabRow pcodeH popH iso level (bnd, u, ds) row =
          (bnd, u, ds ++ [Diag.warnUnit iso (row pcodeH) level]) := by
        simp [tabRow, hm]
      rw [hstep, ih]
      have hnone : ∀ b ∈ bnd, pvEq (row pcodeH) b.adm_pcode = false := by
        intro b hb
        have := List.any_eq_false.mp hm b hb
        simpa using this
      simp only [Prod.mk.injEq]
      refine ⟨?_, ?_, ?_⟩
      · exact mapExt _ _ _ (fun b hb => by
          show rowsApply pcodeH popH rows b = rowsApply pcodeH popH rows (rowUpd _ _ b)
          rw [rowUpd_noMatch _ _ _ (hnone b hb)])
      · simp [List.any_cons, hm]
      · simp [List.filter_cons, hm, List.append_assoc]

theorem pyRound_le_abs (q : ℚ) (n : ℤ) : |q - (pyRound q : ℚ)| ≤ |q - (n : ℚ)| := by
  have hfl : ((⌊q⌋ : ℤ) : ℚ) ≤ q := Int.floor_le q
  have hfu : q < ((⌊q⌋ : ℤ) : ℚ) + 1 := Int.lt_floor_add_one q
  have hlow : ∀ m : ℤ, m ≤ ⌊q⌋ → q - ((⌊q⌋ : ℤ) : ℚ) ≤ |q - (m : ℚ)| := by
    intro m hm
    have : ((m : ℤ) : ℚ) ≤ ((⌊q⌋ : ℤ) : ℚ) := by exact_mod_cast hm
    calc q - ((⌊q⌋ : ℤ) : ℚ) ≤ q - (m : ℚ) := by linarith
    _ ≤ |q - (m : ℚ)| := le_abs_self _
  have hhigh : ∀ m : ℤ, ⌊q⌋ + 1 ≤ m → ((⌊q⌋ : ℤ) : ℚ) + 1 - q ≤ |q - (m : ℚ)| := by
    intro m hm
    have : ((⌊q⌋ : ℤ) : ℚ) + 1 ≤ (m : ℚ) := by exact_mod_cast hm
    calc ((⌊q⌋ : ℤ) : ℚ) + 1 - q ≤ (m : ℚ) - q := by linarith
    _ ≤ |(m : ℚ) - q| := le_abs_self _
    _ = |q - (m : ℚ)| := abs_sub_comm _ _
  have hsplit : n ≤ ⌊q⌋ ∨ ⌊q⌋ + 1 ≤ n := by omega
  unfold pyRound
  split_ifs with h1 h2 h3
  · have habs : |q - ((⌊q⌋ : ℤ) : ℚ)| = q - ((⌊q⌋ : ℤ) : ℚ) := abs_of_nonneg (by linarith)
    rcases hsplit with hn | hn
    · rw [habs]; exact hlow n hn
    · rw [habs]
      have := hhigh n hn
      linarith
  · have habs : |q - (((⌊q⌋ + 1 : ℤ)) : ℚ)| = ((⌊q⌋ : ℤ) : ℚ) + 1 - q := by
      rw [abs_of_nonpos (by push_cast; linarith)]
      push_cast
      ring
    rcases hsplit with hn | hn
    · rw [habs]
      have := hlow n hn
      linarith
    · rw [habs]; exact hhigh n hn
  · have habs : |q - ((⌊q⌋ : ℤ) : ℚ)| = q - ((⌊q⌋ : ℤ) : ℚ) := abs_of_nonneg (by linarith)
    have htie : q - ((⌊q⌋ : ℤ) : ℚ) = 1/2 := by linarith
    rcases hsplit with hn | hn
    · rw [habs]; exact hlow n hn
    · rw [habs, htie]
      have := hhigh n hn
      linarith
  · have habs : |q - (((⌊q⌋ + 1 : ℤ)) : ℚ)| = ((⌊q⌋ : ℤ) : ℚ) + 1 - q := by
      rw [abs_of_nonpos (by push_cast; linarith)]
      push_cast
      ring
    have htie : q - ((⌊q⌋ : ℤ) : ℚ) = 1/2 := by linarith
    rcases hsplit with hn | hn
    · rw [habs]
      have := hlow n hn
      linarith
    · rw [habs]; exact hhigh n hn

theorem pyRound_tie_even (q : ℚ) (n : ℤ) (hne : n ≠ pyRound q)
    (heq : |q - (n : ℚ)| = |q - (pyRound q : ℚ)|) : pyRound q % 2 = 0 := by
  have hfl : ((⌊q⌋ : ℤ) : ℚ) ≤ q := Int.floor_le q
  have hfu : q < ((⌊q⌋ : ℤ) : ℚ) + 1 := Int.lt_floor_add_one q
  have hlow : ∀ m : ℤ, m ≤ ⌊q⌋ - 1 → q - (m : ℚ) ≤ |q - (m : ℚ)| ∧
      q - ((⌊q⌋ : ℤ) : ℚ) + 1 ≤ q - (m : ℚ) := by
    intro m hm
    have : ((m : ℤ) : ℚ) ≤ ((⌊q⌋ : ℤ) : ℚ) - 1 := by
      have : ((m : ℤ) : ℚ) ≤ (((⌊q⌋ - 1 : ℤ)) : ℚ) := by exact_mod_cast hm
      push_cast at this
      linarith
    exact ⟨le_abs_self _, by linarith⟩
  have hhigh : ∀ m : ℤ, ⌊q⌋ + 1 ≤ m → (m : ℚ) - q ≤ |q - (m : ℚ)| ∧
      ((⌊q⌋ : ℤ) : ℚ) + 1 - q ≤ (m : ℚ) - q := by
    intro m hm
    have : ((⌊q⌋ : ℤ) : ℚ) + 1 ≤ (m : ℚ) := by exact_mod_cast hm
    constructor
    · rw [abs_sub_comm]
      exact le_abs_self _
    · linarith
  revert hne heq
  unfold pyRound
  split_ifs with h1 h2 h3 <;> intro hne heq
  · exfalso
    have habs : |q - ((⌊q⌋ : ℤ) : ℚ)| = q - ((⌊q⌋ : ℤ) : ℚ) := abs_of_nonneg (by linarith)
    rw [habs] at heq
    have hsplit : n ≤ ⌊q⌋ - 1 ∨ ⌊q⌋ + 1 ≤ n := by omega
    rcases hsplit with hn | hn
    · have := hlow n hn
      linarith
    · have h5 := hhigh n hn
      have : ((⌊q⌋ : ℤ) : ℚ) + 1 - q > 1/2 := by linarith
      linarith [h5.1, h5.2]
  · exfalso
    have habs : |q - (((⌊q⌋ + 1 : ℤ)) : ℚ)| = ((⌊q⌋ : ℤ) : ℚ) + 1 - q := by
      rw [abs_of_nonpos (by push_cast; linarith)]
      push_cast
      ring
    rw [habs] at heq
    have hsplit : n ≤ ⌊q⌋ ∨ ⌊q⌋ + 2 ≤ n := by omega
    rcases hsplit with hn | hn
    · have hc : ((n : ℤ) : ℚ) ≤ ((⌊q⌋ : ℤ) : ℚ) := by exact_mod_cast hn
      have h6 : q - (n : ℚ) ≤ |q - (n : ℚ)| := le_abs_self _
      have : q - (n : ℚ) ≥ q - ((⌊q⌋ : ℤ) : ℚ) := by linarith
      linarith
    · have hc : ((⌊q⌋ : ℤ) : ℚ) + 2 ≤ (n : ℚ) := by
        have : (((⌊q⌋ + 2 : ℤ)) : ℚ) ≤ (n : ℚ) := by exact_mod_cast hn
        push_cast at this
        linarith
      have h6 : (n : ℚ) - q ≤ |q - (n : ℚ)| := by
        rw [abs_sub_comm]
        exact le_abs_self _
      linarith
  · exact h3
  · omega

/- Claim theorems. -/

/-- Claim C1 (code bug): find_resource is specified never to raise, but when
the dataset is found and two matching csv resources carry no 4-digit year
token in their names, the unguarded max() on the empty year list at line 54
raises ValueError. -/
theorem find_resource_unguarded_max_raises :
    (find_resource env1 "AAA" 1).2 = .error .valueError := by decide

/-- Claim C2 counterexample: with three matching csv resources named for the
years 2019, 2021 and 2021, the max-year filter leaves two entries, so the code
keeps the full candidate list and returns its first element - the 2019-named
resource - whereas the claim requires an entry referencing the maximum year
2021. -/
theorem find_resource_max_year_filter_cex :
    (find_resource env2 "AAA" 1).2 = .ok (some r19, "csv") ∧
    substrB "2021" r19.name = false ∧
    allYearsOf (csvCands env2 ds2 "AAA" 1) = [2019, 2021, 2021] := by decide

/-- Claim C3 counterexample: the pcode lookup of analyze_tabular is not scoped
to the processed (country, level); a row streamed for ("AAA", level 1) also
overwrites the ("BBB", level 2) record that carries the same pcode. -/
theorem analyze_tabular_cross_scope_cex :
    (analyze_tabular ["ADM#PCODE"] 1 ["ADM1PCODE", "T_TL"] [row3] bnd3 "AAA").2.1 =
      [⟨"AAA", 1, "P1", some (PyVal.vStr "700"), 0⟩,
       ⟨"BBB", 2, "P1", some (PyVal.vStr "700"), 0⟩] := by decide

/-- Claim C3 (amended): a streamed row whose pcode matches no record of the
entire boundary table yields one warning and no change; a row whose pcode
matches some record writes its raw population value onto every record of the
table with that pcode - across all countries and levels, the last matching
row winning - and records never matched keep all their fields. -/
theorem analyze_tabular_row_semantics (templates : List String) (level : Nat)
    (headers : List String) (rows : List (String → PyVal)) (bnd : List BRow)
    (iso pH popH : String)
    (hres : resolveHeaders templates level headers = (some pH, some popH))
    (hp : ¬ pH = "") (hq : ¬ popH = "") :
    (analyze_tabular templates level headers rows bnd iso).2.1 =
      bnd.map (rowsApply pH popH rows) ∧
    (analyze_tabular templates level headers rows bnd iso).2.2 =
      (rows.filter (fun row => !(bnd.any (fun b => pvEq (row pH) b.adm_pcode)))).map
        (fun row => Diag.warnUnit iso (row pH) level) ∧
    (∀ b : BRow, skel (rowsApply pH popH rows b) = skel b) ∧
    (∀ (b : BRow) (row2 : String → PyVal), pvEq (row2 pH) b.adm_pcode = true →
      (rowUpd (row2 pH) (row2 popH) b).population = some (row2 popH)) ∧
    (∀ b : BRow, (∀ row2 ∈ rows, pvEq (row2 pH) b.adm_pcode = false) →
      rowsApply pH popH rows b = b) := by
  have htr1 : truthy (resolveHeaders templates level headers).1 = true := by
    rw [hres]
    simp [truthy, hp]
  have htr2 : truthy (resolveHeaders templates level headers).2 = true := by
    rw [hres]
    simp [truthy, hq]
  have hg1 : (resolveHeaders templates level headers).1.getD "" = pH := by simp [hres]
  have hg2 : (resolveHeaders templates level headers).2.getD "" = popH := by simp [hres]
  refine ⟨?_, ?_, ?_, ?_, ?_⟩
  · simp [analyze_tabular, htr1, htr2, hg1, hg2, tabFold]
  · simp [analyze_tabular, htr1, htr2, hg1, hg2, tabFold]
  · intro b
    induction rows generalizing b with
    | nil => rfl
    | cons row rows ih =>
      rw [show rowsApply pH popH (row :: rows) b =
            rowsApply pH popH rows (rowUpd (row pH) (row popH) b) from rfl, ih, rowUpd_skel]
  · intro b row2 h
    simp [rowUpd, h]
  · intro b hb
    induction rows generalizing b with
    | nil => rfl
    | cons row rows ih =>
      rw [show rowsApply pH popH (row :: rows) b =
            rowsApply pH popH rows (rowUpd (row pH) (row popH) b) from rfl,
        rowUpd_noMatch _ _ _ (hb row (List.mem_cons_self row rows))]
      exact ih b (fun r2 h2 => hb r2 (List.mem_cons_of_mem row h2))

/-- Witness for the amended C3 at a concrete cross-scope table. -/
theorem analyze_tabular_row_semantics_witness :
    (analyze_tabular ["ADM#PCODE"] 1 ["ADM1PCODE", "T_TL"] [row3] bnd3 "AAA").2.1 =
      bnd3.map (rowsApply "ADM1PCODE" "T_TL" [row3]) :=
  (analyze_tabular_row_semantics ["ADM#PCODE"] 1 ["ADM1PCODE", "T_TL"] [row3] bnd3
    "AAA" "ADM1PCODE" "T_TL" (by decide) (by decide) (by decide)).1

/-- Claim C4 counterexample: Python round is banker's rounding, so the raw sum
1234.5 is stored as 1234, not the 1235 required by ties-rounded-half-up; and a
defined sum of exactly 0 stores nothing at all (the record stays null) even
though the claim requires every defined sum to be stored. -/
theorem analyze_raster_round_half_even_cex :
    (analyze_raster (.ok ()) [("P1", some (2469/2 : ℚ))] [brow4] "AAA").2.1 =
      [⟨"AAA", 1, "P1", some (PyVal.vInt 1234), 0⟩] ∧
    ¬ (1234 : ℤ) = 1235 ∧
    (analyze_raster (.ok ()) [("P1", some (0 : ℚ))] [brow4] "AAA").2.1 = [brow4] := by
  have hpr : pyRound (2469/2 : ℚ) = 1234 := by norm_num [pyRound]
  refine ⟨?_, by decide, ?_⟩
  · have h1 : (analyze_raster (.ok ()) [("P1", some (2469/2 : ℚ))] [brow4] "AAA").2.1 =
        rasterStep [brow4] ("P1", some (2469/2 : ℚ)) := rfl
    rw [h1]
    have h0 : ((2469/2 : ℚ) == 0) = false := by norm_num
    simp only [rasterStep, h0, Bool.false_eq_true, if_false, hpr]
    decide
  · have h1 : (analyze_raster (.ok ()) [("P1", some (0 : ℚ))] [brow4] "AAA").2.1 =
        rasterStep [brow4] ("P1", some (0 : ℚ)) := rfl
    rw [h1]
    simp [rasterStep]

/-- Claim C4 (amended): a polygon with a defined nonzero sum stores, for every
record with its pcode, the sum rounded to the nearest integer with ties to
even (Python banker's rounding); polygons with an undefined sum change
nothing. pyRound is nearest (third conjunct) with ties resolved to an even
integer (fourth conjunct). -/
theorem analyze_raster_rounding (bnd : List BRow) (iso p : String) (q : ℚ)
    (hq : ¬ q = 0) :
    (analyze_raster (.ok ()) [(p, some q)] bnd iso).2.1 =
      pcodeUpd p (PyVal.vInt (pyRound q)) bnd ∧
    (analyze_raster (.ok ()) [(p, none)] bnd iso).2.1 = bnd ∧
    (∀ n : ℤ, |q - (pyRound q : ℚ)| ≤ |q - (n : ℚ)|) ∧
    (∀ n : ℤ, ¬ n = pyRound q → |q - (n : ℚ)| = |q - (pyRound q : ℚ)| →
      pyRound q % 2 = 0) := by
  refine ⟨?_, rfl, fun n => pyRound_le_abs q n, fun n h1 h2 => pyRound_tie_even q n h1 h2⟩
  have h1 : (analyze_raster (.ok ()) [(p, some q)] bnd iso).2.1 =
      rasterStep bnd (p, some q) := rfl
  rw [h1]
  have h0 : (q == 0) = false := by
    simp [hq]
  simp only [rasterStep, h0, Bool.false_eq_true, if_false]

/-- Witness for the amended C4 at the spec example: a raw sum of 1234.4 stores
population 1234. -/
theorem analyze_raster_rounding_witness :
    pyRound (6172/5 : ℚ) = 1234 ∧
    (analyze_raster (.ok ()) [("P1", some (6172/5 : ℚ))] [brow4] "AAA").2.1 =
      pcodeUpd "P1" (PyVal.vInt (pyRound (6172/5 : ℚ))) [brow4] :=
  ⟨by norm_num [pyRound],
   (analyze_raster_rounding [brow4] "AAA" "P1" (6172/5) (by norm_num)).1⟩

/-- Claim C5 counterexample: the ValueError escaping find_resource for AAA
aborts update_population before BBB is even attempted, although the BBB pair
alone succeeds and is recorded; moreover a country duplicated in the input
list is attempted twice at the same level. -/
theorem update_population_abort_cex :
    update_population env5 bnd5 ["AAA", "BBB"] = .error .valueError ∧
    ucOf (update_population env5 bnd5 ["BBB"]) = some [(1, ["BBB"])] ∧
    (diagsOf (update_population env5 bnd5 ["BBB", "BBB"])).map
      (fun ds => ds.count (Diag.infoProcessing "BBB" 1)) = some 2 := by decide

/-- Claim C6: analyze_tabular returns the failure marker exactly when the
pcode header is falsy, the population header is falsy, or no streamed row
matched any boundary pcode; a missing pcode header fails with the table
untouched and only the pcode-header diagnostic, and a missing population
header (with the pcode header found) fails with the table untouched and only
the population-header diagnostic. -/
theorem analyze_tabular_failure_iff (templates : List String) (level : Nat)
    (headers : List String) (rows : List (String → PyVal)) (bnd : List BRow)
    (iso : String) :
    ((analyze_tabular templates level headers rows bnd iso).1 = none ↔
      (truthy (resolveHeaders templates level headers).1 = false ∨
       truthy (resolveHeaders templates level headers).2 = false ∨
       rows.any (fun row => bnd.any (fun b =>
         pvEq (row ((resolveHeaders templates level headers).1.getD "")) b.adm_pcode))
         = false)) ∧
    (truthy (resolveHeaders templates level headers).1 = false →
      analyze_tabular templates level headers rows bnd iso =
        (none, bnd, [Diag.errNoPcodeHeader iso level])) ∧
    (truthy (resolveHeaders templates level headers).1 = true →
      truthy (resolveHeaders templates level headers).2 = false →
      analyze_tabular templates level headers rows bnd iso =
        (none, bnd, [Diag.errNoPopHeader iso level])) := by
  cases hp : truthy (resolveHeaders templates level headers).1 with
  | false =>
    have he : analyze_tabular templates level headers rows bnd iso =
        (none, bnd, [Diag.errNoPcodeHeader iso level]) := by
      simp [analyze_tabular, hp]
    simp [he]
  | true =>
    cases hq : truthy (resolveHeaders templates level headers).2 with
    | false =>
      have he : analyze_tabular templates level headers rows bnd iso =
          (none, bnd, [Diag.errNoPopHeader iso level]) := by
        simp [analyze_tabular, hp, hq]
      simp [he]
    | true =>
      have he : (analyze_tabular templates level headers rows bnd iso).1 =
          (if rows.any (fun row => bnd.any (fun b =>
              pvEq (row ((resolveHeaders templates level headers).1.getD ""))
                b.adm_pcode))
           then some iso else none) := by
        simp [analyze_tabular, hp, hq, tabFold]
      simp only [he]
      cases hflag : rows.any (fun row => bnd.any (fun b =>
          pvEq (row ((resolveHeaders templates level headers).1.getD "")) b.adm_pcode)) with
      | true => simp [hflag]
      | false => simp [hflag]

/-- Witness for C6 at the spec end-to-end example (headers resolved, the
single row matches, so the call succeeds). -/
theorem analyze_tabular_failure_iff_witness :
    ((analyze_tabular ["ADM#PCODE"] 1 ["ADM1PCODE", "T_TL"] [rowKEN] bndKEN "KEN").1 = none ↔
      (truthy (resolveHeaders ["ADM#PCODE"] 1 ["ADM1PCODE", "T_TL"]).1 = false ∨
       truthy (resolveHeaders ["ADM#PCODE"] 1 ["ADM1PCODE", "T_TL"]).2 = false ∨
       ([rowKEN].any (fun row => bndKEN.any (fun b =>
         pvEq (row ((resolveHeaders ["ADM#PCODE"] 1 ["ADM1PCODE", "T_TL"]).1.getD ""))
           b.adm_pcode)) = false))) ∧
    (truthy (resolveHeaders ["ADM#PCODE"] 1 ["ADM1PCODE", "T_TL"]).1 = false →
      analyze_tabular ["ADM#PCODE"] 1 ["ADM1PCODE", "T_TL"] [rowKEN] bndKEN "KEN" =
        (none, bndKEN, [Diag.errNoPcodeHeader "KEN" 1])) ∧
    (truthy (resolveHeaders ["ADM#PCODE"] 1 ["ADM1PCODE", "T_TL"]).1 = true →
      truthy (resolveHeaders ["ADM#PCODE"] 1 ["ADM1PCODE", "T_TL"]).2 = false →
      analyze_tabular ["ADM#PCODE"] 1 ["ADM1PCODE", "T_TL"] [rowKEN] bndKEN "KEN" =
        (none, bndKEN, [Diag.errNoPopHeader "KEN" 1])) :=
  analyze_tabular_failure_iff ["ADM#PCODE"] 1 ["ADM1PCODE", "T_TL"] [rowKEN] bndKEN "KEN"

/-- Claim C8: a failed raster download makes analyze_raster return the failure
marker with the boundary table untouched and only the download error logged;
once the download succeeds the call returns the country code whatever the
zonal statistics are (even for zero polygons). -/
theorem analyze_raster_download_contract (stats : List (String × Option ℚ))
    (bnd : List BRow) (iso : String) :
    analyze_raster (.error ()) stats bnd iso = (none, bnd, [Diag.errDownloadRaster iso]) ∧
    (analyze_raster (.ok ()) stats bnd iso).1 = some iso := by
  exact ⟨rfl, rfl⟩

/-- Claim C9: a polygon with a defined zonal sum of exactly 0 is handled
identically to one with an undefined sum - the truthiness guard skips the
store either way, so the record keeps its previous population. -/
theorem analyze_raster_zero_sum_as_undefined (dl : Except Unit Unit)
    (stats1 stats2 : List (String × Option ℚ)) (p : String) (bnd : List BRow)
    (iso : String) :
    analyze_raster dl (stats1 ++ (p, some 0) :: stats2) bnd iso =
      analyze_raster dl (stats1 ++ (p, none) :: stats2) bnd iso := by
  cases dl with
  | error e => rfl
  | ok u =>
    have h : ∀ b : List BRow, rasterStep b (p, some 0) = rasterStep b (p, none) := by
      intro b
      simp [rasterStep]
    simp only [analyze_raster, List.foldl_append, List.foldl_cons, h]

/-- Claim C10: the population value written by a matched tabular row is the
raw cell value delivered by the row streamer - stored verbatim (second
conjunct), with unmatched records untouched (third conjunct), and the whole
table update is exactly the per-record write of that raw value (first
conjunct); no parsing, rounding, validation or normalisation occurs. -/
theorem analyze_tabular_raw_value (templates : List String) (level : Nat)
    (headers : List String) (row : String → PyVal) (bnd : List BRow)
    (iso pH popH : String)
    (hres : resolveHeaders templates level headers = (some pH, some popH))
    (hp : ¬ pH = "") (hq : ¬ popH = "") :
    (analyze_tabular templates level headers [row] bnd iso).2.1 =
      bnd.map (rowUpd (row pH) (row popH)) ∧
    (∀ b : BRow, pvEq (row pH) b.adm_pcode = true →
      (rowUpd (row pH) (row popH) b).population = some (row popH)) ∧
    (∀ b : BRow, pvEq (row pH) b.adm_pcode = false →
      rowUpd (row pH) (row popH) b = b) := by
  have htr1 : truthy (resolveHeaders templates level headers).1 = true := by
    rw [hres]
    simp [truthy, hp]
  have htr2 : truthy (resolveHeaders templates level headers).2 = true := by
    rw [hres]
    simp [truthy, hq]
  have hg1 : (resolveHeaders templates level headers).1.getD "" = pH := by simp [hres]
  have hg2 : (resolveHeaders templates level headers).2.getD "" = popH := by simp [hres]
  refine ⟨?_, ?_, ?_⟩
  · cases hm : bnd.any (fun b => pvEq (row pH) b.adm_pcode) with
    | true => simp [analyze_tabular, htr1, htr2, hg1, hg2, tabRow, hm]
    | false =>
      have hid : bnd.map (rowUpd (row pH) (row popH)) = bnd := by
        have h0 : bnd.map (rowUpd (row pH) (row popH)) = bnd.map (fun b => b) :=
          mapExt _ _ _ (fun b hb =>
            rowUpd_noMatch _ _ _ (by simpa using List.any_eq_false.mp hm b hb))
        rw [h0, List.map_id']
      simp [analyze_tabular, htr1, htr2, hg1, hg2, tabRow, hm, hid]
  · intro b h
    simp [rowUpd, h]
  · intro b h
    exact rowUpd_noMatch _ _ _ h

/-- Witness for C10: the raw cell value vNone is written verbatim. -/
theorem analyze_tabular_raw_value_witness :
    (analyze_tabular ["ADM#PCODE"] 1 ["ADM1PCODE", "T_TL"] [row10] bndKEN "KEN").2.1 =
      bndKEN.map (rowUpd (row10 "ADM1PCODE") (row10 "T_TL")) :=
  (analyze_tabular_raw_value ["ADM#PCODE"] 1 ["ADM1PCODE", "T_TL"] row10 bndKEN
    "KEN" "ADM1PCODE" "T_TL" (by decide) (by decide) (by decide)).1

/-- Claim C7 (code bug): update_hdx_resource drops prior rows by pandas index
label. Processing level 1 first appends the fresh ("ABC", 1, "AB001") row
under label 0; the level-2 pass then drops label 0 because the prior
("ABC", 2) row carries it, deleting the fresh level-1 row as collateral: the
output lacks any "AB001" row although the claim requires the freshly computed
(country, level-1) slice to be present. -/
theorem update_hdx_resource_label_collision :
    update_hdx_resource bnd7 (some (.ok prior7)) uc7 =
      some [(1, ⟨"ABC", 2, "AB002", some (PyVal.vInt 22)⟩),
            (1, ⟨"XYZ", 9, "X1", some (PyVal.vInt 7)⟩)] := by decide

theorem containsB_iff {α : Type} [BEq α] [LawfulBEq α] (l : List α) (x : α) :
    l.contains x = true ↔ x ∈ l := by
  simp

/-- Claim C2 (amended): with several matching tabular resources, year tokens
are extracted from all names; the filter to the entries naming the maximum
year replaces the candidate list only when it retains exactly one entry,
which is then returned (first conjunct - in particular with exactly two
matches named for years y1 < y2 the y2 resource is selected); otherwise the
first entry of the ORIGINAL candidate list is returned and the ambiguity
warning is emitted (second conjunct). -/
theorem find_resource_year_selection (env : Env) (iso : String) (level : Nat)
    (ds : PyDataset) (r1 r2 : Resource) (rest : List Resource) (y1 y2 : Nat)
    (hds : env.read_from_hdx (dsNameOf env iso) = some ds)
    (hc : csvCands env ds iso level = r1 :: r2 :: rest) :
    ((rest = [] ∧ yearTokens r1.name = [y1] ∧ yearTokens r2.name = [y2] ∧ y1 < y2 ∧
      substrB (Nat.repr y2) r2.name = true ∧ substrB (Nat.repr y2) r1.name = false) →
      (find_resource env iso level).2 = .ok (some r2, "csv")) ∧
    ((¬ allYearsOf (r1 :: r2 :: rest) = [] ∧ ¬ (maxFilterOf (r1 :: r2 :: rest)).length = 1) →
      (find_resource env iso level).2 = .ok (some r1, "csv") ∧
      Diag.warnMultiple iso ∈ (find_resource env iso level).1) := by
  have hfr : find_resource env iso level = selectFromMulti iso (r1 :: r2 :: rest) := by
    have h1 : find_resource env iso level =
        (match csvCands env ds iso level with
         | [] => ([Diag.warnNoCsv iso level], .ok (none, "geotiff"))
         | [r] => ([], .ok (some r, "csv"))
         | r1 :: r2 :: rest => selectFromMulti iso (r1 :: r2 :: rest)) := by
      unfold find_resource
      rw [hds]
    rw [h1, hc]
  constructor
  · rintro ⟨hrest, hy1, hy2, hlt, hin, hnin⟩
    subst hrest
    have hyears : allYearsOf [r1, r2] = [y1, y2] := by
      simp [allYearsOf, hy1, hy2]
    have hmax : (allYearsOf [r1, r2]).max? = some y2 := by
      rw [hyears]
      show some ([y2].foldl max y1) = some y2
      simp [max_eq_right (le_of_lt hlt)]
    have hmf : maxFilterOf [r1, r2] = [r2] := by
      unfold maxFilterOf
      rw [hmax]
      simp [List.filter_cons, hin, hnin]
    rw [hfr]
    unfold selectFromMulti
    rw [hmax]
    simp [hmf]
  · rintro ⟨hne, hlen⟩
    cases hl : allYearsOf (r1 :: r2 :: rest) with
    | nil => exact absurd hl hne
    | cons a as =>
      have hmax : (allYearsOf (r1 :: r2 :: rest)).max? = some (as.foldl max a) := by
        rw [hl]
        rfl
      rw [hfr]
      unfold selectFromMulti
      rw [hmax]
      simp only [if_neg hlen]
      simp [List.length_cons]

/-- Witness for the amended C2 at the spec example: two matching resources
named for 2019 and 2021, the 2021 one is selected. -/
theorem find_resource_year_selection_witness :
    (find_resource env2w "AAA" 1).2 = .ok (some r21a, "csv") :=
  (find_resource_year_selection env2w "AAA" 1 ds2w r19 r21a [] 2019 2021
    (by decide) (by decide)).1 (by decide)

/- Infrastructure for the update_population characterisation: every boundary
write preserves the (country, level, pcode) skeleton, and per-pair success
depends on the table only through that skeleton. -/

theorem pcodeUpd_skel (p : String) (v : PyVal) (bnd : List BRow) :
    (pcodeUpd p v bnd).map skel = bnd.map skel := by
  rw [pcodeUpd, List.map_map]
  exact mapExt _ _ _ (fun b _ => by
    simp only [Function.comp_apply, skel]
    split <;> rfl)

theorem rasterStep_skel (bnd : List BRow) (st : String × Option ℚ) :
    (rasterStep bnd st).map skel = bnd.map skel := by
  rcases st with ⟨p, s⟩
  cases s with
  | none => rfl
  | some q =>
    by_cases h0 : (q == 0) = true
    · simp [rasterStep, h0]
    · simp [rasterStep, h0, pcodeUpd_skel]

theorem rasterFold_skel (stats : List (String × Option ℚ)) (bnd : List BRow) :
    (stats.foldl rasterStep bnd).map skel = bnd.map skel := by
  induction stats generalizing bnd with
  | nil => rfl
  | cons s stats ih => rw [List.foldl_cons, ih, rasterStep_skel]

theorem analyze_raster_skel (dl : Except Unit Unit) (stats : List (String × Option ℚ))
    (bnd : List BRow) (iso : String) :
    ((analyze_raster dl stats bnd iso).2.1).map skel = bnd.map skel := by
  cases dl with
  | error e => rfl
  | ok u => exact rasterFold_skel stats bnd

theorem analyze_raster_fst (dl : Except Unit Unit) (stats stats2 : List (String × Option ℚ))
    (bnd bnd2 : List BRow) (iso : String) :
    (analyze_raster dl stats bnd iso).1 = (analyze_raster dl stats2 bnd2 iso).1 := by
  cases dl <;> rfl

theorem rowsApply_skel (pH popH : String) (rows : List (String → PyVal)) (b : BRow) :
    skel (rowsApply pH popH rows b) = skel b := by
  induction rows generalizing b with
  | nil => rfl
  | cons row rows ih =>
    rw [show rowsApply pH popH (row :: rows) b =
          rowsApply pH popH rows (rowUpd (row pH) (row popH) b) from rfl, ih, rowUpd_skel]

theorem analyze_tabular_skel (templates : List String) (level : Nat) (headers : List String)
    (rows : List (String → PyVal)) (bnd : List BRow) (iso : String) :
    ((analyze_tabular templates level headers rows bnd iso).2.1).map skel = bnd.map skel := by
  by_cases h1 : truthy (resolveHeaders templates level headers).1 = false
  · simp [analyze_tabular, h1]
  · by_cases h2 : truthy (resolveHeaders templates level headers).2 = false
    · simp [analyze_tabular, h1, h2]
    · unfold analyze_tabular
      rw [if_neg h1, if_neg h2, tabFold]
      dsimp only
      rw [List.map_map]
      refine mapExt _ _ _ (fun b _ => ?_)
      simp only [Function.comp_apply]
      exact rowsApply_skel _ _ _ b

theorem anyPcode_skel (bnd bnd2 : List BRow) (h : bnd.map skel = bnd2.map skel) (x : PyVal) :
    bnd.any (fun b => pvEq x b.adm_pcode) = bnd2.any (fun b => pvEq x b.adm_pcode) := by
  have h1 : ∀ l : List BRow, l.any (fun b => pvEq x b.adm_pcode) =
      (l.map skel).any (fun t => pvEq x t.2.2) := by
    intro l
    induction l with
    | nil => rfl
    | cons b l ih => simp only [List.map_cons, List.any_cons, skel, ih]
  rw [h1 bnd, h1 bnd2, h]

theorem analyze_tabular_fst_skel (templates : List String) (level : Nat)
    (headers : List String) (rows : List (String → PyVal)) (bnd bnd2 : List BRow)
    (iso : String) (h : bnd.map skel = bnd2.map skel) :
    (analyze_tabular templates level headers rows bnd iso).1 =
      (analyze_tabular templates level headers rows bnd2 iso).1 := by
  by_cases h1 : truthy (resolveHeaders templates level headers).1 = false
  · simp [analyze_tabular, h1]
  · by_cases h2 : truthy (resolveHeaders templates level headers).2 = false
    · simp [analyze_tabular, h1, h2]
    · have hr : rows.any (fun row => bnd.any (fun b =>
          pvEq (row ((resolveHeaders templates level headers).1.getD "")) b.adm_pcode)) =
          rows.any (fun row => bnd2.any (fun b =>
          pvEq (row ((resolveHeaders templates level headers).1.getD "")) b.adm_pcode)) :=
        anyExt _ _ _ (fun row => anyPcode_skel bnd bnd2 h _)
      unfold analyze_tabular
      rw [if_neg h1, if_neg h2, if_neg h1, if_neg h2, tabFold, tabFold]
      dsimp only
      rw [hr]

theorem dispatch_skel (env : Env) (iso : String) (level : Nat) (r : Resource)
    (rtype : String) (bnd : List BRow) :
    ((dispatch env iso level r rtype bnd).2.1).map skel = bnd.map skel := by
  unfold dispatch
  split_ifs
  · exact analyze_raster_skel _ _ _ _
  · exact analyze_tabular_skel _ _ _ _ _ _
  · rfl

theorem dispatch_fst_skel (env : Env) (iso : String) (level : Nat) (r : Resource)
    (rtype : String) (bnd bnd2 : List BRow) (h : bnd.map skel = bnd2.map skel) :
    (dispatch env iso level r rtype bnd).1 = (dispatch env iso level r rtype bnd2).1 := by
  unfold dispatch
  split_ifs
  · exact analyze_raster_fst _ _ _ _ _ _
  · exact analyze_tabular_fst_skel _ _ _ _ _ _ _ h
  · rfl

theorem pairSuccess_skel (env : Env) (iso : String) (level : Nat) (bnd bnd2 : List BRow)
    (h : bnd.map skel = bnd2.map skel) :
    pairSuccess env bnd iso level = pairSuccess env bnd2 iso level := by
  unfold pairSuccess
  cases hfr : (find_resource env iso level).2 with
  | error e => rfl
  | ok t =>
    rcases t with ⟨ro, rtype⟩
    cases ro with
    | none => rfl
    | some r =>
      show (dispatch env iso level r rtype bnd).1.isSome =
        (dispatch env iso level r rtype bnd2).1.isSome
      rw [dispatch_fst_skel env iso level r rtype bnd bnd2 h]

theorem filterMapLevels_skel (bnd bnd2 : List BRow) (h : bnd.map skel = bnd2.map skel)
    (iso : String) :
    (bnd.filter (fun b => b.alpha_3 == iso)).map (fun b => b.adm_level) =
      (bnd2.filter (fun b => b.alpha_3 == iso)).map (fun b => b.adm_level) := by
  have h1 : ∀ l : List BRow,
      (l.filter (fun b => b.alpha_3 == iso)).map (fun b => b.adm_level) =
      ((l.map skel).filter (fun t => t.1 == iso)).map (fun t => t.2.1) := by
    intro l
    induction l with
    | nil => rfl
    | cons b l ih =>
      by_cases hb : (b.alpha_3 == iso) = true
      · simp only [List.filter_cons, List.map_cons, hb, if_pos]
        rw [show ((skel b).1 == iso) = true from hb, if_pos rfl]
        simp only [List.map_cons, ih]
        rfl
      · have hb2 : (b.alpha_3 == iso) = false := by simpa using hb
        simp only [List.filter_cons, List.map_cons, hb2]
        rw [show ((skel b).1 == iso) = false from hb2]
        simp only [Bool.false_eq_true, if_false, ih]
  rw [h1 bnd, h1 bnd2, h]

theorem levelsOf_skel (bnd bnd2 : List BRow) (h : bnd.map skel = bnd2.map skel)
    (iso : String) : levelsOf bnd iso = levelsOf bnd2 iso := by
  unfold levelsOf
  rw [filterMapLevels_skel bnd bnd2 h iso]

theorem dedupAux_mem (l : List Nat) : ∀ (seen : List Nat) (x : Nat),
    x ∈ dedupAux seen l → x ∈ l ∧ ¬ x ∈ seen := by
  induction l with
  | nil =>
    intro seen x hx
    simp [dedupAux] at hx
  | cons a l ih =>
    intro seen x hx
    by_cases ha : seen.contains a = true
    · rw [dedupAux, if_pos ha] at hx
      obtain ⟨h1, h2⟩ := ih seen x hx
      exact ⟨List.mem_cons_of_mem a h1, h2⟩
    · rw [dedupAux, if_neg ha] at hx
      rcases List.mem_cons.mp hx with h | h
      · subst h
        refine ⟨List.mem_cons_self _ _, fun hc => ha ((containsB_iff seen x).mpr hc)⟩
      · obtain ⟨h1, h2⟩ := ih (a :: seen) x h
        exact ⟨List.mem_cons_of_mem a h1,
          fun hc => h2 (List.mem_cons_of_mem a hc)⟩

theorem dedupAux_nodup (l : List Nat) : ∀ seen : List Nat, (dedupAux seen l).Nodup := by
  induction l with
  | nil => intro seen; exact List.nodup_nil
  | cons a l ih =>
    intro seen
    by_cases ha : seen.contains a = true
    · rw [dedupAux, if_pos ha]
      exact ih seen
    · rw [dedupAux, if_neg ha]
      refine List.nodup_cons.mpr ⟨?_, ih (a :: seen)⟩
      intro hc
      exact (dedupAux_mem l (a :: seen) a hc).2 (List.mem_cons_self _ _)

theorem levelsOf_nodup (bnd : List BRow) (iso : String) : (levelsOf bnd iso).Nodup :=
  dedupAux_nodup _ []

/- Association-list lemmas for the updated_countries dict. -/

theorem lookupUC_ensure_self (uc : List (Nat × List String)) (level : Nat) :
    lookupUC (ensureKey uc level) level = some ((lookupUC uc level).getD []) := by
  unfold ensureKey
  by_cases h : (lookupUC uc level).isSome = true
  · rw [if_pos h]
    cases hl : lookupUC uc level with
    | some lst => simp
    | none => rw [hl] at h; simp at h
  · rw [if_neg h]
    cases hl : lookupUC uc level with
    | some lst => rw [hl] at h; simp at h
    | none =>
      have hf : uc.find? (fun p => p.1 == level) = none := by
        unfold lookupUC at hl
        cases hf2 : uc.find? (fun p => p.1 == level) with
        | none => rfl
        | some pr => rw [hf2] at hl; simp at hl
      unfold lookupUC
      rw [List.find?_append, hf]
      simp [List.find?]

theorem lookupUC_ensure_other (uc : List (Nat × List String)) (level l2 : Nat)
    (h : ¬ l2 = level) :
    lookupUC (ensureKey uc level) l2 = lookupUC uc l2 := by
  unfold ensureKey
  by_cases hs : (lookupUC uc level).isSome = true
  · rw [if_pos hs]
  · rw [if_neg hs]
    unfold lookupUC
    rw [List.find?_append]
    cases hf : uc.find? (fun p => p.1 == l2) with
    | some pr => rfl
    | none =>
      have hne : (level == l2) = false := by
        simp only [beq_eq_false_iff_ne]
        exact fun hc => h hc.symm
      simp [List.find?, hne]

theorem ucHas_ensure (uc : List (Nat × List String)) (level l2 : Nat) (i : String) :
    ucHas (ensureKey uc level) l2 i = ucHas uc l2 i := by
  by_cases he : l2 = level
  · subst he
    unfold ucHas
    rw [lookupUC_ensure_self]
    cases hl : lookupUC uc l2 with
    | some lst => simp
    | none => simp [List.contains]
  · unfold ucHas
    rw [lookupUC_ensure_other uc level l2 he]

theorem lookupUC_addIso (uc : List (Nat × List String)) (level l2 : Nat) (iso : String) :
    lookupUC (addIso uc level iso) l2 =
      (lookupUC uc l2).map (fun lst =>
        if (l2 == level) = true then (if lst.contains iso then lst else lst ++ [iso])
        else lst) := by
  induction uc with
  | nil => rfl
  | cons p uc ih =>
    have hstep : addIso (p :: uc) level iso =
        (if (p.1 == level) = true
         then (p.1, if p.2.contains iso then p.2 else p.2 ++ [iso]) else p)
          :: addIso uc level iso := rfl
    by_cases hp2 : (p.1 == l2) = true
    · by_cases hp1 : (p.1 == level) = true
      · have he2 : p.1 = l2 := by simpa using hp2
        have he1 : p.1 = level := by simpa using hp1
        have hL : (l2 == level) = true := by
          have hll : l2 = level := by rw [← he2]; exact he1
          simp [hll]
        rw [hstep, if_pos hp1]
        unfold lookupUC
        rw [List.find?_cons, List.find?_cons]
        dsimp only
        rw [hp2]
        simp only [Option.map_some']
        rw [if_pos hL]
      · have he2 : p.1 = l2 := by simpa using hp2
        have hL : (l2 == level) = false := by
          have hll : ¬ l2 = level := fun hc => hp1 (by simp [he2, hc])
          simpa using hll
        rw [hstep, if_neg hp1]
        unfold lookupUC
        rw [List.find?_cons, List.find?_cons]
        rw [hp2]
        simp only [Option.map_some', hL, Bool.false_eq_true, if_false]
    · have hp2f : (p.1 == l2) = false := by simpa using hp2
      by_cases hp1 : (p.1 == level) = true
      · rw [hstep, if_pos hp1]
        unfold lookupUC at ih ⊢
        rw [List.find?_cons, List.find?_cons]
        dsimp only
        rw [hp2f]
        exact ih
      · rw [hstep, if_neg hp1]
        unfold lookupUC at ih ⊢
        rw [List.find?_cons, List.find?_cons]
        rw [hp2f]
        exact ih

theorem contains_append_single {α : Type} [BEq α] [LawfulBEq α] (l : List α) (a x : α) :
    (l ++ [a]).contains x = (l.contains x || (x == a)) := by
  rw [Bool.eq_iff_iff]
  simp only [Bool.or_eq_true, containsB_iff, List.mem_append, List.mem_singleton,
    beq_iff_eq]

theorem ucHas_addIso_ensure (uc : List (Nat × List String)) (level l2 : Nat)
    (iso i : String) :
    ucHas (addIso (ensureKey uc level) level iso) l2 i =
      (ucHas uc l2 i || ((l2 == level) && (i == iso))) := by
  unfold ucHas
  rw [lookupUC_addIso]
  by_cases he : l2 = level
  · subst he
    rw [lookupUC_ensure_self]
    have hb : (l2 == l2) = true := beq_self_eq_true l2
    simp only [Option.map_some', hb, if_pos, Bool.true_and]
    cases hl : lookupUC uc l2 with
    | none =>
      simp only [Option.getD_none]
      rw [Bool.eq_iff_iff]
      simp [List.contains]
    | some lst =>
      simp only [Option.getD_some]
      by_cases hc : lst.contains iso = true
      · rw [if_pos hc]
        rw [Bool.eq_iff_iff]
        simp only [Bool.or_eq_true, containsB_iff, beq_iff_eq]
        constructor
        · intro h
          exact Or.inl h
        · rintro (h | h)
          · exact h
          · subst h
            exact (containsB_iff lst i).mp hc
      · rw [if_neg hc, contains_append_single]
  · have hb : (l2 == level) = false := by
      simp only [beq_eq_false_iff_ne]
      exact he
    rw [lookupUC_ensure_other uc level l2 he]
    simp only [hb, Bool.false_and, Bool.or_false]
    cases hl : lookupUC uc l2 with
    | none => rfl
    | some lst => simp [hb]

/-- Which log events are the per-pair processing marker (line 129). -/
def isProc : Diag → Bool
  | .infoProcessing _ _ => true
  | _ => false

theorem ite_warn_noProc (iso : String) (c : Prop) [Decidable c] :
    ∀ d ∈ (if c then [Diag.warnMultiple iso] else []), isProc d = false := by
  split
  · intro d hd
    simp only [List.mem_singleton] at hd
    subst hd
    rfl
  · intro d hd
    simp at hd

theorem selectFromMulti_diags_noProc (iso : String) (rs : List Resource) :
    ∀ d ∈ (selectFromMulti iso rs).1, isProc d = false := by
  unfold selectFromMulti
  cases hmx : (allYearsOf rs).max? with
  | none =>
    intro d hd
    simp at hd
  | some my =>
    dsimp only
    cases hp : (if (maxFilterOf rs).length = 1 then maxFilterOf rs else rs) with
    | nil =>
      intro d hd
      simp at hd
    | cons r tail =>
      intro d hd
      exact ite_warn_noProc iso _ d hd

theorem find_resource_diags_noProc (env : Env) (iso : String) (level : Nat) :
    ∀ d ∈ (find_resource env iso level).1, isProc d = false := by
  unfold find_resource
  split
  · split
    · intro d hd
      simp only [List.mem_singleton] at hd
      subst hd
      rfl
    · split <;>
        (intro d hd
         simp only [List.mem_singleton] at hd
         subst hd
         rfl)
  · split
    · intro d hd
      simp only [List.mem_singleton] at hd
      subst hd
      rfl
    · intro d hd
      simp at hd
    · exact selectFromMulti_diags_noProc iso _

theorem analyze_tabular_diags_noProc (templates : List String) (level : Nat)
    (headers : List String) (rows : List (String → PyVal)) (bnd : List BRow)
    (iso : String) :
    ∀ d ∈ (analyze_tabular templates level headers rows bnd iso).2.2, isProc d = false := by
  by_cases h1 : truthy (resolveHeaders templates level headers).1 = false
  · intro d hd
    unfold analyze_tabular at hd
    rw [if_pos h1] at hd
    simp only [List.mem_singleton] at hd
    subst hd
    rfl
  · by_cases h2 : truthy (resolveHeaders templates level headers).2 = false
    · intro d hd
      unfold analyze_tabular at hd
      rw [if_neg h1, if_pos h2] at hd
      simp only [List.mem_singleton] at hd
      subst hd
      rfl
    · intro d hd
      unfold analyze_tabular at hd
      rw [if_neg h1, if_neg h2, tabFold] at hd
      dsimp only at hd
      simp only [List.nil_append, List.mem_map] at hd
      obtain ⟨row, _, hd⟩ := hd
      subst hd
      rfl

theorem dispatch_diags_noProc (env : Env) (iso : String) (level : Nat) (r : Resource)
    (rtype : String) (bnd : List BRow) :
    ∀ d ∈ (dispatch env iso level r rtype bnd).2.2, isProc d = false := by
  unfold dispatch
  split_ifs
  · unfold analyze_raster
    split
    · intro d hd
      simp only [List.mem_singleton] at hd
      subst hd
      rfl
    · intro d hd
      simp at hd
  · exact analyze_tabular_diags_noProc _ _ _ _ _ _
  · intro d hd
    simp at hd

theorem count_noProc (D : List Diag) (h : ∀ d ∈ D, isProc d = false) (i : String)
    (l : Nat) : D.count (Diag.infoProcessing i l) = 0 := by
  rw [List.count_eq_zero]
  intro hc
  have := h _ hc
  simp [isProc] at this

theorem stepPair_ok_spec (env : Env) (iso : String) (st : UState) (level : Nat)
    (hok : exIsOk (find_resource env iso level).2 = true) :
    ∃ st2, stepPair env iso st level = .ok st2 ∧
      st2.bnd.map skel = st.bnd.map skel ∧
      (∀ (i : String) (l : Nat), st2.diags.count (Diag.infoProcessing i l) =
        st.diags.count (Diag.infoProcessing i l) +
          (if i = iso ∧ l = level then 1 else 0)) ∧
      (∀ (l : Nat) (i : String), ucHas st2.uc l i =
        (ucHas st.uc l i ||
          ((l == level) && (i == iso) && pairSuccess env st.bnd iso level))) := by
  have hfrd := find_resource_diags_noProc env iso level
  unfold stepPair pairSuccess
  cases hfr : (find_resource env iso level).2 with
  | error e =>
    rw [hfr] at hok
    simp [exIsOk] at hok
  | ok t =>
    rcases t with ⟨ro, rtype⟩
    cases ro with
    | none =>
      refine ⟨_, rfl, rfl, ?_, ?_⟩
      · intro i l
        show (st.diags ++ [Diag.infoProcessing iso level] ++ (find_resource env iso level).1
            ++ [Diag.errNoData iso rtype level]).count (Diag.infoProcessing i l) = _
        rw [List.count_append, List.count_append, List.count_append]
        rw [count_noProc _ hfrd i l]
        by_cases hi : i = iso ∧ l = level
        · obtain ⟨hi1, hi2⟩ := hi
          subst hi1
          subst hi2
          simp [List.count_cons]
        · have h1 : ¬ Diag.infoProcessing iso level = Diag.infoProcessing i l := by
            intro hc
            injection hc with a b
            exact hi ⟨a.symm, b.symm⟩
          simp [List.count_cons, List.count_nil, h1, hi]
      · intro l i
        show ucHas (ensureKey st.uc level) l i = _
        rw [ucHas_ensure]
        simp
    | some r =>
      refine ⟨_, rfl, ?_, ?_, ?_⟩
      · show ((dispatch env iso level r rtype st.bnd).2.1).map skel = st.bnd.map skel
        exact dispatch_skel env iso level r rtype st.bnd
      · intro i l
        show (st.diags ++ [Diag.infoProcessing iso level] ++ (find_resource env iso level).1
            ++ (dispatch env iso level r rtype st.bnd).2.2).count (Diag.infoProcessing i l) = _
        rw [List.count_append, List.count_append, List.count_append]
        rw [count_noProc _ hfrd i l,
          count_noProc _ (dispatch_diags_noProc env iso level r rtype st.bnd) i l]
        by_cases hi : i = iso ∧ l = level
        · obtain ⟨hi1, hi2⟩ := hi
          subst hi1
          subst hi2
          simp [List.count_cons]
        · have h1 : ¬ Diag.infoProcessing iso level = Diag.infoProcessing i l := by
            intro hc
            injection hc with a b
            exact hi ⟨a.symm, b.symm⟩
          simp [List.count_cons, List.count_nil, h1, hi]
      · intro l i
        show ucHas (if (dispatch env iso level r rtype st.bnd).1.isSome
            then addIso (ensureKey st.uc level) level iso else ensureKey st.uc level) l i = _
        cases hsucc : (dispatch env iso level r rtype st.bnd).1.isSome with
        | true =>
          rw [if_pos rfl, ucHas_addIso_ensure]
          dsimp only
          rw [hsucc, Bool.and_true]
        | false =>
          rw [if_neg (by simp), ucHas_ensure]
          dsimp only
          rw [hsucc, Bool.and_false, Bool.or_false]

theorem runLevels_spec (env : Env) (iso : String) (ls : List Nat) (st : UState)
    (hnd : ls.Nodup)
    (hok : ∀ l ∈ ls, exIsOk (find_resource env iso l).2 = true) :
    ∃ st2, runLevels env iso st ls = .ok st2 ∧
      st2.bnd.map skel = st.bnd.map skel ∧
      (∀ (i : String) (l : Nat), st2.diags.count (Diag.infoProcessing i l) =
        st.diags.count (Diag.infoProcessing i l) + (if i = iso ∧ l ∈ ls then 1 else 0)) ∧
      (∀ (l : Nat) (i : String), ucHas st2.uc l i =
        (ucHas st.uc l i || (ls.contains l && (i == iso) && pairSuccess env st.bnd iso l))) := by
  induction ls generalizing st with
  | nil =>
    refine ⟨st, rfl, rfl, fun i l => by simp, fun l i => by simp [List.contains]⟩
  | cons l0 ls ih =>
    obtain ⟨st1, hs1, hskel1, hcount1, huc1⟩ :=
      stepPair_ok_spec env iso st l0 (hok l0 (List.mem_cons_self _ _))
    obtain ⟨st2, hs2, hskel2, hcount2, huc2⟩ :=
      ih st1 (List.Nodup.of_cons hnd) (fun l hl => hok l (List.mem_cons_of_mem _ hl))
    have hl0 : ¬ l0 ∈ ls := (List.nodup_cons.mp hnd).1
    refine ⟨st2, ?_, ?_, ?_, ?_⟩
    · rw [runLevels, hs1]
      exact hs2
    · rw [hskel2, hskel1]
    · intro i l
      rw [hcount2 i l, hcount1 i l]
      by_cases hi : i = iso
      · subst hi
        by_cases h1 : l = l0
        · subst h1
          have h2 : ¬ (i = i ∧ l ∈ ls) := fun hc => hl0 hc.2
          rw [if_neg h2, if_pos ⟨rfl, rfl⟩, if_pos ⟨rfl, List.mem_cons_self l ls⟩]
        · have h2 : ¬ (i = i ∧ l = l0) := fun hc => h1 hc.2
          rw [if_neg h2]
          by_cases h3 : l ∈ ls
          · rw [if_pos ⟨rfl, h3⟩, if_pos ⟨rfl, List.mem_cons_of_mem l0 h3⟩]
          · have h4 : ¬ (l ∈ l0 :: ls) := by
              intro hc
              rcases List.mem_cons.mp hc with hc | hc
              · exact h1 hc
              · exact h3 hc
            rw [if_neg (fun hc => h3 hc.2), if_neg (fun hc => h4 hc.2)]
      · have h2 : ¬ (i = iso ∧ l = l0) := fun hc => hi hc.1
        have h3 : ¬ (i = iso ∧ l ∈ ls) := fun hc => hi hc.1
        have h4 : ¬ (i = iso ∧ l ∈ l0 :: ls) := fun hc => hi hc.1
        rw [if_neg h2, if_neg h3, if_neg h4]
    · intro l i
      rw [huc2 l i, pairSuccess_skel env iso l st1.bnd st.bnd hskel1, huc1 l i]
      rw [Bool.eq_iff_iff]
      simp only [Bool.or_eq_true, Bool.and_eq_true, beq_iff_eq, containsB_iff,
        List.mem_cons]
      by_cases hll : l = l0
      · subst hll
        tauto
      · tauto

theorem runCountries_spec (env : Env) (cs : List String) (st : UState)
    (hnd : cs.Nodup)
    (hok : ∀ i ∈ cs, ∀ l ∈ levelsOf st.bnd i, exIsOk (find_resource env i l).2 = true) :
    ∃ st2, runCountries env st cs = .ok st2 ∧
      st2.bnd.map skel = st.bnd.map skel ∧
      (∀ (i : String) (l : Nat), st2.diags.count (Diag.infoProcessing i l) =
        st.diags.count (Diag.infoProcessing i l) +
          (if i ∈ cs ∧ l ∈ levelsOf st.bnd i then 1 else 0)) ∧
      (∀ (l : Nat) (i : String), ucHas st2.uc l i =
        (ucHas st.uc l i || (cs.contains i && (levelsOf st.bnd i).contains l &&
          pairSuccess env st.bnd i l))) := by
  induction cs generalizing st with
  | nil =>
    refine ⟨st, rfl, rfl, fun i l => by simp, fun l i => by simp [List.contains]⟩
  | cons c cs ih =>
    obtain ⟨st1, hs1, hskel1, hcount1, huc1⟩ :=
      runLevels_spec env c (levelsOf st.bnd c) st (levelsOf_nodup _ _)
        (fun l hl => hok c (List.mem_cons_self _ _) l hl)
    have hlev : ∀ i2, levelsOf st1.bnd i2 = levelsOf st.bnd i2 :=
      fun i2 => levelsOf_skel st1.bnd st.bnd hskel1 i2
    obtain ⟨st2, hs2, hskel2, hcount2, huc2⟩ :=
      ih st1 (List.Nodup.of_cons hnd)
        (fun i hi l hl => hok i (List.mem_cons_of_mem _ hi) l (by rwa [hlev i] at hl))
    have hcn : ¬ c ∈ cs := (List.nodup_cons.mp hnd).1
    refine ⟨st2, ?_, ?_, ?_, ?_⟩
    · rw [runCountries, hs1]
      exact hs2
    · rw [hskel2, hskel1]
    · intro i l
      rw [hcount2 i l, hlev i, hcount1 i l]
      by_cases h1 : i = c
      · subst h1
        have h2 : ¬ (i ∈ cs ∧ l ∈ levelsOf st.bnd i) := fun hc => hcn hc.1
        rw [if_neg h2]
        by_cases h3 : l ∈ levelsOf st.bnd i
        · rw [if_pos ⟨rfl, h3⟩, if_pos ⟨List.mem_cons_self i cs, h3⟩]
        · rw [if_neg (fun hc => h3 hc.2), if_neg (fun hc => h3 hc.2)]
      · have h2 : ¬ (i = c ∧ l ∈ levelsOf st.bnd c) := fun hc => h1 hc.1
        rw [if_neg h2]
        by_cases h3 : i ∈ cs ∧ l ∈ levelsOf st.bnd i
        · rw [if_pos h3, if_pos ⟨List.mem_cons_of_mem c h3.1, h3.2⟩]
        · rw [if_neg h3,
            if_neg (fun hc => h3 ⟨(List.mem_cons.mp hc.1).resolve_left h1, hc.2⟩)]
    · intro l i
      rw [huc2 l i, hlev i, pairSuccess_skel env i l st1.bnd st.bnd hskel1, huc1 l i]
      rw [Bool.eq_iff_iff]
      simp only [Bool.or_eq_true, Bool.and_eq_true, beq_iff_eq, containsB_iff,
        List.mem_cons]
      by_cases hic : i = c
      · subst hic
        tauto
      · tauto

/-- Claim C5 (amended): provided the country list is duplicate-free and
find_resource raises no exception on any attempted pair, update_population
returns normally; each (country, level) pair - the level drawn from that
country's boundary-table levels - is logged as processed exactly once and no
other pair is ever processed; and the returned mapping holds a country under
a level exactly when the dispatched aggregator reported success for that pair
(so per-pair failures reported via None never prevent other pairs from being
attempted). Without the no-exception proviso, and for duplicated country
lists, the original claim is false - see the counterexample. -/
theorem update_population_characterization (env : Env) (bnd0 : List BRow)
    (countries : List String) (hnd : countries.Nodup)
    (hexc : ∀ iso ∈ countries, ∀ level ∈ levelsOf bnd0 iso,
      exIsOk (find_resource env iso level).2 = true) :
    ∃ m bnd2 ds, update_population env bnd0 countries = .ok (m, bnd2, ds) ∧
      bnd2.map skel = bnd0.map skel ∧
      (∀ iso ∈ countries, ∀ level ∈ levelsOf bnd0 iso,
        ds.count (Diag.infoProcessing iso level) = 1) ∧
      (∀ (iso : String) (level : Nat), ¬ (iso ∈ countries ∧ level ∈ levelsOf bnd0 iso) →
        ds.count (Diag.infoProcessing iso level) = 0) ∧
      (∀ (level : Nat) (iso : String), ucHas m level iso =
        (countries.contains iso && (levelsOf bnd0 iso).contains level &&
          pairSuccess env bnd0 iso level)) := by
  obtain ⟨st2, hrun, hskel, hcount, huc⟩ :=
    runCountries_spec env countries ⟨[], bnd0, []⟩ hnd hexc
  refine ⟨st2.uc, st2.bnd, st2.diags, ?_, hskel, ?_, ?_, ?_⟩
  · unfold update_population
    rw [hrun]
    rfl
  · intro iso hiso level hlevel
    rw [hcount iso level, if_pos ⟨hiso, hlevel⟩]
    simp
  · intro iso level hn
    rw [hcount iso level, if_neg hn]
    simp
  · intro level iso
    rw [huc level iso]
    simp [ucHas, lookupUC]

/-- Witness for the amended C5 at a concrete one-country run that succeeds
through the raster fallback. -/
theorem update_population_characterization_witness :
    ∃ m bnd2 ds, update_population env5 bnd5 ["BBB"] = .ok (m, bnd2, ds) ∧
      bnd2.map skel = bnd5.map skel ∧
      (∀ iso ∈ ["BBB"], ∀ level ∈ levelsOf bnd5 iso,
        ds.count (Diag.infoProcessing iso level) = 1) ∧
      (∀ (iso : String) (level : Nat), ¬ (iso ∈ ["BBB"] ∧ level ∈ levelsOf bnd5 iso) →
        ds.count (Diag.infoProcessing iso level) = 0) ∧
      (∀ (level : Nat) (iso : String), ucHas m level iso =
        (["BBB"].contains iso && (levelsOf bnd5 iso).contains level &&
          pairSuccess env5 bnd5 iso level)) :=
  update_population_characterization env5 bnd5 ["BBB"] (by decide) (by decide)

end Pop
